import Mathlib

namespace NT

/- Batteries marks the `Rat` arithmetic operations `@[irreducible]`; concrete
evaluation of the embedded engine (witnesses and counterexamples below use
`decide`) needs them unfolded. -/
attribute [local semireducible] Rat.add Rat.mul Rat.sub Rat.inv Rat.ofScientific

/-!
A shallow embedding of the generative music engine implemented in
`src/services/AudioEngine.ts`.  Pure data (patterns, phases, patches) is
translated to Lean structures; the engine object's mutable fields become an
explicit `EngineState` record and each method a state-passing function.
`Math.random()` is modelled as one global stream of rationals consumed left to
right (structure `Rand`); JavaScript floating-point numbers are modelled as `ℚ`
(every numeric literal and operation used by the translated code is exact in
binary64 at the relevant magnitudes, e.g. `noteCount / 16` against `0.25` and
`0.75`).  Audio-only code paths (oscillators, noise buffers, reverb impulses,
log-entry ids) are outside the model: they consume random draws but never feed
back into the musical state, and every theorem below that quantifies over the
random stream is insensitive to such draw-offset differences.
-/

/-- One stream of `Math.random()` draws: an infinite sequence of rationals and
a cursor marking the next draw. -/
structure Rand where
  stream : Nat → ℚ
  idx : Nat

/-- The value of the next `Math.random()` call. -/
def Rand.peek (r : Rand) : ℚ := r.stream r.idx

/-- Advance past one consumed `Math.random()` call. -/
def Rand.step (r : Rand) : Rand := ⟨r.stream, r.idx + 1⟩

/-- `Math.floor(q * n)`, coerced to an array index. -/
def floorDraw (q : ℚ) (n : Nat) : Nat := (⌊q * (n : ℚ)⌋).toNat

/-- Two random states that will deliver the same sequence of draws from their
cursors onward. -/
def Rand.Agrees (r1 r2 : Rand) : Prop :=
  ∀ i, r1.stream (r1.idx + i) = r2.stream (r2.idx + i)

/-- `MacroPhase` from `src/types.ts`. -/
inductive MacroPhase
  | DRIFT
  | BUILD
  | PEAK
  | COMEDOWN
deriving DecidableEq, BEq

/-- `SynthesisType` from `src/types.ts`. -/
inductive SynthesisType
  | SUBTRACTIVE
  | FM
deriving DecidableEq

/-- `OscillatorType` values used by the engine. -/
inductive Waveform
  | sine
  | square
  | sawtooth
  | triangle
deriving DecidableEq

/-- `BiquadFilterType` values used by the engine. -/
inductive FilterType
  | lowpass
  | bandpass
  | highpass
deriving DecidableEq

/-- `SynthPatch` from `src/types.ts`. -/
structure SynthPatch where
  type : SynthesisType
  waveform : Waveform
  attack : ℚ
  decay : ℚ
  sustain : ℚ
  release : ℚ
  detuneAmount : ℚ
  fmDepth : ℚ
  harmonicRatio : ℚ
  filterType : FilterType
deriving DecidableEq

/-- `ChordProgression` from `src/types.ts`. -/
structure ChordProgression where
  rootOffsets : List Int
  barLength : Nat
deriving DecidableEq

/-- `EvolutionLocks` from `src/types.ts`. -/
structure EvolutionLocks where
  melody : Bool
  timbre : Bool
  harmony : Bool
  rhythm : Bool
deriving DecidableEq

/-- `Pattern` from `src/types.ts`: `steps` holds scale-degree offsets or `null`
(rests); `offsets` and `score` are optional fields; `parent` is the lineage
descriptor. -/
structure Pattern where
  id : String
  steps : List (Option Int)
  velocity : List ℚ
  offsets : Option (List ℚ)
  generation : Nat
  parent : Option String
  score : Option ℚ
deriving DecidableEq

/-- The branch taken by `evolvePattern` (the source records it in the local
string `action`, emitted verbatim in the `EVOLUTION >>` log line; genesis
emits the `GENESIS >>` line). -/
inductive EvolveAction
  | GENESIS
  | LEARNING_CROSSOVER
  | CROSSOVER
  | MUTATION
  | MASS_EXTINCTION
deriving DecidableEq

/-- `SCALES.MINOR` from `src/constants.ts`. -/
def SCALES_MINOR : List Int := [0, 3, 5, 7, 10]

/-- `ROOT_NOTES` from `src/constants.ts`. -/
def ROOT_NOTES : List Int := [41, 43, 45, 46, 48]

/-- Array.prototype.indexOf on the scale: found index, or `-1`. -/
def jsIndexOf (l : List Int) (v : Int) : Int :=
  match l.findIdx? (fun x => x == v) with
  | some i => (i : Int)
  | none => -1

/-! ### Euclidean rhythm generator (`getEuclideanPattern`, lines 324-338) -/

/-- The accumulator loop of `getEuclideanPattern`: add `pulses` to the bucket
each step; when the bucket reaches `steps`, subtract and emit `true`. -/
def euclidFrom (steps pulses : Nat) : Nat → Nat → List Bool
  | _, 0 => []
  | bucket, n + 1 =>
    let b := bucket + pulses
    if steps ≤ b then true :: euclidFrom steps pulses (b - steps) n
    else false :: euclidFrom steps pulses b n

/-- The Euclidean pattern before the random rotation is applied. -/
def getEuclideanPatternBase (steps pulses : Nat) : List Bool :=
  euclidFrom steps pulses 0 steps

/-- `getEuclideanPattern`: the accumulator pattern followed by a uniformly
random rotation (`[...pattern.slice(rotation), ...pattern.slice(0, rotation)]`). -/
def getEuclideanPattern (steps pulses : Nat) (r : Rand) : List Bool × Rand :=
  let pattern := getEuclideanPatternBase steps pulses
  let rotation := floorDraw r.peek steps
  (pattern.drop rotation ++ pattern.take rotation, r.step)

/-! ### Fitness (`calculateFitness`, lines 494-522) -/

/-- The running accumulator of the `forEach` in `calculateFitness`. -/
structure FitAcc where
  score : Int
  noteCount : Nat
  lastNoteVal : Int

/-- One iteration of the `forEach` body in `calculateFitness`. -/
def fitnessStep (acc : FitAcc) (idx : Nat) (val : Option Int) : FitAcc :=
  match val with
  | none => acc
  | some v =>
    let score1 :=
      if idx % 4 = 0 then
        if v = 0 ∨ v = 7 ∨ v = 12 then acc.score + 10
        else if v = 3 ∨ v = 4 ∨ v = 5 then acc.score + 5
        else acc.score
      else acc.score
    let score2 :=
      if acc.lastNoteVal ≠ -100 then
        let interval := (v - acc.lastNoteVal).natAbs
        if interval ≤ 4 then score1 + 5
        else if 7 < interval ∧ interval ≠ 12 then score1 - 5
        else score1
      else score1
    { score := score2, noteCount := acc.noteCount + 1, lastNoteVal := v }

/-- The full `forEach` walk over the step array, carrying the index. -/
def fitnessWalk : List (Option Int) → Nat → FitAcc → FitAcc
  | [], _, acc => acc
  | v :: rest, idx, acc => fitnessWalk rest (idx + 1) (fitnessStep acc idx v)

/-- `pattern.steps[i] !== null` in JavaScript: an out-of-range read yields
`undefined`, which is also `!== null`. -/
def jsStepNotNull (steps : List (Option Int)) (i : Nat) : Prop :=
  steps[i]? ≠ some none

instance (steps : List (Option Int)) (i : Nat) : Decidable (jsStepNotNull steps i) :=
  inferInstanceAs (Decidable (steps[i]? ≠ some none))

/-- `calculateFitness` as a function of the step array alone (the source reads
only `pattern.steps`).  The density test `noteCount / 16 > 0.25 &&
noteCount / 16 < 0.75` is exact in binary64 for `noteCount ≤ 16`, so `ℚ`
division translates it faithfully. -/
def fitnessOfSteps (steps : List (Option Int)) : ℚ :=
  let acc := fitnessWalk steps 0 ⟨0, 0, -100⟩
  let density : ℚ := (acc.noteCount : ℚ) / 16
  let score1 := if 1/4 < density ∧ density < 3/4 then acc.score + 20 else acc.score - 10
  let score2 := if jsStepNotNull steps 2 ∨ jsStepNotNull steps 10 then score1 + 5 else score1
  ((max 0 score2 : Int) : ℚ)

/-- `calculateFitness` (lines 494-522). -/
def calculateFitness (p : Pattern) : ℚ := fitnessOfSteps p.steps

/-! ### Pattern construction (`createRandomPattern`, lines 524-537) -/

/-- Pattern ids are produced by `Math.random().toString(36).substr(2, 5)`.
The base-36 rendering is irrelevant to every claim (ids are only ever compared
for equality), so the drawn rational is rendered directly. -/
def freshId (q : ℚ) : String := toString q.num ++ "_" ++ toString q.den

/-- The genesis loop of `createRandomPattern`: per step, one draw decides note
versus rest (`Math.random() > 0.6`); a note draws a scale degree and a
velocity in `[0.5, 1)`. -/
def createRandomSteps (scale : List Int) :
    Nat → Rand → (List (Option Int) × List ℚ × List ℚ) × Rand
  | 0, r => (([], [], []), r)
  | n + 1, r =>
    let q1 := r.peek
    let r1 := r.step
    if 3/5 < q1 then
      let q2 := r1.peek
      let r2 := r1.step
      let note := scale.getD (floorDraw q2 scale.length) 0
      let q3 := r2.peek
      let r3 := r2.step
      let rest := createRandomSteps scale n r3
      ((some note :: rest.1.1, (1/2 + q3 * (1/2)) :: rest.1.2.1, (0 : ℚ) :: rest.1.2.2), rest.2)
    else
      let rest := createRandomSteps scale n r1
      ((none :: rest.1.1, (0 : ℚ) :: rest.1.2.1, (0 : ℚ) :: rest.1.2.2), rest.2)

/-- `createRandomPattern` (default length 16). -/
def createRandomPattern (scale : List Int) (r : Rand) : Pattern × Rand :=
  let body := createRandomSteps scale 16 r
  let qid := body.2.peek
  ({ id := freshId qid, steps := body.1.1, velocity := body.1.2.1,
     offsets := some body.1.2.2, generation := 0, parent := none,
     score := some 0 }, body.2.step)

/-! ### Counterpoint (`generateCounterPattern`, lines 539-566) -/

/-- The per-step loop of `generateCounterPattern`: where the melody has a note
the counterpoint plays with probability 0.1 (a third or fifth above by
scale-relative index, falling back to `mainNote + 4`), where it rests the
counterpoint plays with probability 0.7 on a stable degree; every produced
note is voiced an octave up (`+ 12`). -/
def counterSteps (scale : List Int) :
    List (Option Int) → Rand → (List (Option Int) × List ℚ × List ℚ) × Rand
  | [], r => (([], [], []), r)
  | mv :: rest, r =>
    let playProb : ℚ := if mv ≠ none then 1/10 else 7/10
    let q1 := r.peek
    let r1 := r.step
    if q1 < playProb then
      match mv with
      | some mainNote =>
        let q2 := r1.peek
        let r2 := r1.step
        let interval : Nat := if 1/2 < q2 then 2 else 4
        let cdi := jsIndexOf scale mainNote
        let noteVal : Int :=
          if cdi ≠ -1 then scale.getD ((cdi.toNat + interval) % scale.length) 0
          else mainNote + 4
        let q3 := r2.peek
        let r3 := r2.step
        let tl := counterSteps scale rest r3
        ((some (noteVal + 12) :: tl.1.1, (2/5 + q3 * (3/10)) :: tl.1.2.1,
          (0 : ℚ) :: tl.1.2.2), tl.2)
      | none =>
        let q2 := r1.peek
        let r2 := r1.step
        let d := List.getD [0, 2, 4, 1] (floorDraw q2 4) 0
        let noteVal : Int := scale.getD (d % scale.length) 0
        let q3 := r2.peek
        let r3 := r2.step
        let tl := counterSteps scale rest r3
        ((some (noteVal + 12) :: tl.1.1, (2/5 + q3 * (3/10)) :: tl.1.2.1,
          (0 : ℚ) :: tl.1.2.2), tl.2)
    else
      let tl := counterSteps scale rest r1
      ((none :: tl.1.1, (0 : ℚ) :: tl.1.2.1, (0 : ℚ) :: tl.1.2.2), tl.2)

/-- `generateCounterPattern` (lines 539-566). -/
def generateCounterPattern (scale : List Int) (mainPattern : Pattern) (r : Rand) :
    Pattern × Rand :=
  let body := counterSteps scale mainPattern.steps r
  ({ id := "CNTR_" ++ mainPattern.id.take 3, steps := body.1.1,
     velocity := body.1.2.1, offsets := some body.1.2.2,
     generation := mainPattern.generation, parent := none, score := none }, body.2)

/-! ### The genetic step (`evolvePattern`, lines 568-667) -/

/-- The working state of the mutation loop: step, velocity and offset arrays
plus the random cursor. -/
abbrev MutState := List (Option Int) × List ℚ × List ℚ × Rand

/-- The `if (Math.random() < 0.3)` micro-timing drift and the
`idx % 4 === 0 && Math.random() > 0.6` downbeat accent that follow a
note-targeting mutation. -/
def afterNote (idx : Nat) (st : MutState) : MutState :=
  let steps := st.1
  let vel := st.2.1
  let offs := st.2.2.1
  let r := st.2.2.2
  let q1 := r.peek
  let r1 := r.step
  let withDrift : List ℚ × Rand :=
    if q1 < 3/10 then
      let qd := r1.peek
      let drift := qd * (1/5) - 1/10
      (offs.set idx (max (-(1/5)) (min (1/5) (offs.getD idx 0 + drift))), r1.step)
    else (offs, r1)
  if idx % 4 = 0 then
    let qa := withDrift.2.peek
    let r2 := withDrift.2.step
    if 3/5 < qa then (steps, vel.set idx (min 1 (vel.getD idx 0 * (6/5))), withDrift.1, r2)
    else (steps, vel, withDrift.1, r2)
  else (steps, vel, withDrift.1, withDrift.2)

/-- One iteration of the point-mutation loop in `evolvePattern` (lines
628-660): pick a uniform step; a note is re-pitched (probability 0.8, or 0.5
under mass extinction) preferring an adjacent scale degree, or deleted; a rest
becomes a note with probability 0.15 (0.5 under mass extinction). -/
def mutateOnce (scale : List Int) (ext : Bool) (st : MutState) : MutState :=
  let steps := st.1
  let vel := st.2.1
  let offs := st.2.2.1
  let r := st.2.2.2
  let qi := r.peek
  let r1 := r.step
  let idx := floorDraw qi steps.length
  match steps.getD idx none with
  | some currentVal =>
    let q2 := r1.peek
    let r2 := r1.step
    if q2 < (if ext then 1/2 else 4/5 : ℚ) then
      let cdi := jsIndexOf scale currentVal
      let pick : Int × Rand :=
        if cdi ≠ -1 then
          let q3 := r2.peek
          let r3 := r2.step
          if 2/5 < q3 then
            let q4 := r3.peek
            let direction : Int := if 1/2 < q4 then 1 else -1
            (scale.getD ((cdi + direction + (scale.length : Int)) % (scale.length : Int)).toNat 0,
             r3.step)
          else
            let q4 := r3.peek
            (scale.getD (floorDraw q4 scale.length) 0, r3.step)
        else
          let q3 := r2.peek
          (scale.getD (floorDraw q3 scale.length) 0, r2.step)
      let qv := pick.2.peek
      let r5 := pick.2.step
      afterNote idx (steps.set idx (some pick.1), vel.set idx (1/2 + qv * (1/2)), offs, r5)
    else
      afterNote idx (steps.set idx none, vel.set idx 0, offs.set idx 0, r2)
  | none =>
    let q2 := r1.peek
    let r2 := r1.step
    if (if ext then 1/2 else 17/20 : ℚ) < q2 then
      let q3 := r2.peek
      let r3 := r2.step
      (steps.set idx (some (scale.getD (floorDraw q3 scale.length) 0)),
       vel.set idx (3/5), offs.set idx 0, r3)
    else (steps, vel, offs, r2)

/-- The result of one reproduction step of `evolvePattern`: the offspring
arrays, the parent lineage string, the branch taken (the source's local
`action` string) and, for the mutation branch, how many point mutations the
loop ran (0 for the crossover branches, which run no mutation loop). -/
structure Offspring where
  steps : List (Option Int)
  velocity : List ℚ
  offsets : List ℚ
  parentId : String
  action : EvolveAction
  numMutations : Nat
  rand : Rand

/-- The mutation branch (lines 625-661): `numMutations` is 8 under mass
extinction, else `1 + Math.floor(Math.random() * 2)`. -/
def evolveMutate (scale : List Int) (ext : Bool) (cur : Pattern)
    (bS : List (Option Int)) (bV bO : List ℚ) (r : Rand) : Offspring :=
  let picked : Nat × Rand := if ext then (8, r) else (1 + floorDraw r.peek 2, r.step)
  let st := (List.range picked.1).foldl (fun st _ => mutateOnce scale ext st) (bS, bV, bO, picked.2)
  { steps := st.1, velocity := st.2.1, offsets := st.2.2.1, parentId := cur.id,
    action := if ext then .MASS_EXTINCTION else .MUTATION,
    numMutations := picked.1, rand := st.2.2.2 }

/-- The learning crossover branch (lines 606-613): splice steps and velocities
at the array midpoint with a uniformly chosen elite; offsets stay the base
copy. -/
def evolveLearn (elite : List Pattern) (cur : Pattern)
    (bS : List (Option Int)) (bV bO : List ℚ) (r : Rand) : Offspring :=
  let qp := r.peek
  let r1 := r.step
  let partner := elite.getD (floorDraw qp elite.length) cur
  let split := bS.length / 2
  { steps := bS.take split ++ partner.steps.drop split,
    velocity := bV.take split ++ partner.velocity.drop split,
    offsets := bO, parentId := cur.id ++ " x " ++ partner.id,
    action := .LEARNING_CROSSOVER, numMutations := 0, rand := r1 }

/-- The plain crossover test and branch (lines 614-624), entered when the
learning crossover guard failed; on failure (draw ≤ 0.7, fewer than two
history entries, or mass extinction) falls through to mutation.  A plain
crossover partner is a uniformly chosen non-most-recent history entry and its
offsets are spliced too when present. -/
def evolveSecond (scale : List Int) (history : List Pattern) (cur : Pattern) (ext : Bool)
    (bS : List (Option Int)) (bV bO : List ℚ) (r : Rand) : Offspring :=
  let q := r.peek
  let r1 := r.step
  if 7/10 < q ∧ 2 ≤ history.length ∧ ext = false then
    let qp := r1.peek
    let r2 := r1.step
    let partner := history.getD (floorDraw qp (history.length - 1)) cur
    let split := bS.length / 2
    let offs :=
      match partner.offsets with
      | some po => bO.take split ++ po.drop split
      | none => bO
    { steps := bS.take split ++ partner.steps.drop split,
      velocity := bV.take split ++ partner.velocity.drop split,
      offsets := offs, parentId := cur.id ++ " x " ++ partner.id,
      action := .CROSSOVER, numMutations := 0, rand := r2 }
  else evolveMutate scale ext cur bS bV bO r1

/-- The reproduction core of `evolvePattern` past genesis (lines 596-661):
`isMassExtinction` is decided on the already incremented generation; the dead
`mutationType` draw is still consumed; the learning-crossover probe draws only
when the elite archive is non-empty (JavaScript `&&` short-circuit). -/
def evolveCore (scale : List Int) (elite history : List Pattern) (gen : Nat)
    (cur : Pattern) (r0 : Rand) : Offspring :=
  let ext : Bool := gen % 16 == 0
  let bS := cur.steps
  let bV := cur.velocity
  let bO :=
    match cur.offsets with
    | some o => o
    | none => List.replicate cur.steps.length (0 : ℚ)
  let r := r0.step
  if 0 < elite.length then
    let q := r.peek
    let r1 := r.step
    if q < 3/10 ∧ ext = false then evolveLearn elite cur bS bV bO r1
    else evolveSecond scale history cur ext bS bV bO r1
  else evolveSecond scale history cur ext bS bV bO r

/-! ### Elite archive (lines 583-590) -/

/-- The sort key used by the elite archive: `(p.score || 0)`. -/
def eliteKey (p : Pattern) : ℚ := p.score.getD 0

/-- The comparator of `elitePatterns.sort((a, b) => (b.score || 0) - (a.score || 0))`:
`a` may come before `b` when `a` scores at least as much. -/
def eliteGE (a b : Pattern) : Prop := eliteKey b ≤ eliteKey a

instance : DecidableRel eliteGE :=
  fun a b => inferInstanceAs (Decidable (eliteKey b ≤ eliteKey a))

instance : IsTotal Pattern eliteGE := ⟨fun a b => le_total (eliteKey b) (eliteKey a)⟩

instance : IsTrans Pattern eliteGE := ⟨fun _ _ _ h1 h2 => le_trans h2 h1⟩

/-- Array.prototype.sort with the score-descending comparator, modelled as a
stable sort producing a score-descending permutation. -/
def sortDesc (l : List Pattern) : List Pattern := List.insertionSort eliteGE l

/-- The conditional insertion into the elite archive (lines 583-590): only
patterns scoring above 50 enter, duplicates by id are rejected, the array is
pushed, sorted descending, and popped when it exceeds 10 entries. -/
def archiveInsert (elite : List Pattern) (cur : Pattern) (currentScore : ℚ) :
    List Pattern :=
  if 50 < currentScore then
    if ∃ p ∈ elite, p.id = cur.id then elite
    else
      let pushed := sortDesc (elite ++ [cur])
      if 10 < pushed.length then pushed.dropLast else pushed
  else elite

/-- The 5-slot history ring (lines 592-593): push the outgoing pattern, shift
off the oldest entry past capacity 5. -/
def historyPush (history : List Pattern) (cur : Pattern) : List Pattern :=
  let h := history ++ [cur]
  if 5 < h.length then h.tail else h

/-! ### Engine state -/

/-- The musical fields of the `AudioEngine` instance (audio-graph nodes are
out of scope).  `songGenerateEvents` counts the `SONG_GENERATE >>` log
emissions of `regenerateSongStructure` and `lastAction` mirrors the most
recent `EVOLUTION >>`/`GENESIS >>` log line; both are direct observables of
the source's log channel. -/
structure EngineState where
  isAutoEvolve : Bool
  locks : EvolutionLocks
  currentPattern : Option Pattern
  counterPattern : Option Pattern
  patternHistory : List Pattern
  elitePatterns : List Pattern
  currentGeneration : Nat
  macroPhase : MacroPhase
  phaseTimer : Nat
  measureCount : Nat
  rootNote : Int
  currentScale : List Int
  currentProgression : ChordProgression
  currentChordIndex : Nat
  currentChordRoot : Int
  currentPatch : SynthPatch
  hiHatPattern : List Bool
  percussionPattern : List Bool
  noteDensity : ℚ
  filterCutoff : ℚ
  songGenerateEvents : Nat
  lastAction : Option EvolveAction
  rand : Rand

/-- `generateEuclideanRhythms` (lines 340-348): a set rhythm lock with an
existing genome short-circuits; otherwise both voices are regenerated
(hi-hat pulses in `[4, 11]`, percussion pulses in `[2, 5]`). -/
def generateEuclideanRhythms (s : EngineState) : EngineState :=
  if s.locks.rhythm = true ∧ 0 < s.hiHatPattern.length then s
  else
    let q1 := s.rand.peek
    let r1 := s.rand.step
    let hatHits := 4 + floorDraw q1 8
    let hat := getEuclideanPattern 16 hatHits r1
    let q2 := hat.2.peek
    let r3 := hat.2.step
    let percHits := 2 + floorDraw q2 4
    let perc := getEuclideanPattern 16 percHits r3
    { s with hiHatPattern := hat.1, percussionPattern := perc.1, rand := perc.2 }

/-- One progression-offset draw from `pentatonicIntervals = [0, 0, 3, 5, 7, 10, -2, -5]`. -/
def progDraw (r : Rand) : Int × Rand :=
  (List.getD [0, 0, 3, 5, 7, 10, -2, -5] (floorDraw r.peek 8) 0, r.step)

/-- `regenerateSongStructure` (lines 350-393): harmony (root + 4-entry
progression, first offset always 0) unless harmony-locked or timbre-only;
timbre (a whole fresh `SynthPatch`) when unlocked or timbre-only; rhythm
regeneration when unlocked; finally the `SONG_GENERATE >>` log emission. -/
def regenerateSongStructure (s : EngineState) (force timbreOnly : Bool) : EngineState :=
  if force = false ∧ s.isAutoEvolve = false then s
  else
    let s1 :=
      if s.locks.harmony = false ∧ timbreOnly = false then
        let q := s.rand.peek
        let r1 := s.rand.step
        let root := ROOT_NOTES.getD (floorDraw q ROOT_NOTES.length) 0
        let o1 := progDraw r1
        let o2 := progDraw o1.2
        let o3 := progDraw o2.2
        { s with rootNote := root, currentChordRoot := root,
                 currentProgression := ⟨[0, o1.1, o2.1, o3.1], 4⟩, rand := o3.2 }
      else s
    let s2 :=
      if s1.locks.timbre = false ∨ timbreOnly = true then
        let qt := s1.rand.peek
        let r1 := s1.rand.step
        let synthType : SynthesisType := if 3/5 < qt then .FM else .SUBTRACTIVE
        let qw := r1.peek
        let r2 := r1.step
        let qa := r2.peek
        let r3 := r2.step
        let qd := r3.peek
        let r4 := r3.step
        let qs := r4.peek
        let r5 := r4.step
        let qr := r5.peek
        let r6 := r5.step
        let qdet := r6.peek
        let r7 := r6.step
        let qfm := r7.peek
        let r8 := r7.step
        let qh := r8.peek
        let r9 := r8.step
        let qf := r9.peek
        let r10 := r9.step
        { s1 with
          currentPatch :=
            { type := synthType,
              waveform := List.getD [.sawtooth, .square, .triangle, .sawtooth] (floorDraw qw 4) .sawtooth,
              attack := 1/200 + qa * (1/20),
              decay := 1/10 + qd * (3/10),
              sustain := qs * (2/5),
              release := 1/10 + qr * (1/2),
              detuneAmount := 5 + qdet * 20,
              fmDepth := 200 + qfm * 800,
              harmonicRatio := List.getD [1/2, 1, 2, 3, 4, 3/2] (floorDraw qh 6) 0,
              filterType := if 9/10 < qf then .bandpass else .lowpass },
          rand := r10 }
      else s1
    let s3 := if s2.locks.rhythm = false then generateEuclideanRhythms s2 else s2
    { s3 with songGenerateEvents := s3.songGenerateEvents + 1 }

/-- `evolvePattern` (lines 568-667): guards for the melody lock and the
autonomous flag, genesis when no pattern exists, otherwise score and archive
the outgoing pattern, push it into the history ring, increment the
generation, run the reproduction core and install the offspring with a fresh
id, regenerating the counterpoint. -/
def evolvePattern (s : EngineState) (force : Bool) : EngineState :=
  if s.locks.melody && !force then s
  else if !s.isAutoEvolve && !force then s
  else
    match s.currentPattern with
    | none =>
      let pr := createRandomPattern s.currentScale s.rand
      let cp := generateCounterPattern s.currentScale pr.1 pr.2
      { s with currentPattern := some pr.1, counterPattern := some cp.1,
               rand := cp.2, lastAction := some .GENESIS }
    | some cur0 =>
      let currentScore := calculateFitness cur0
      let cur : Pattern := { cur0 with score := some currentScore }
      let elite1 := archiveInsert s.elitePatterns cur currentScore
      let history2 := historyPush s.patternHistory cur
      let gen1 := s.currentGeneration + 1
      let off := evolveCore s.currentScale elite1 history2 gen1 cur s.rand
      let qid := off.rand.peek
      let rId := off.rand.step
      let newPat : Pattern :=
        { id := freshId qid, steps := off.steps, velocity := off.velocity,
          offsets := some off.offsets, generation := gen1,
          parent := some off.parentId, score := some 0 }
      let cp := generateCounterPattern s.currentScale newPat rId
      { s with currentPattern := some newPat, counterPattern := some cp.1,
               patternHistory := history2, elitePatterns := elite1,
               currentGeneration := gen1, rand := cp.2,
               lastAction := some off.action }

/-! ### Macro structure (lines 475-480, 696-742) -/

/-- The `phases` array of `transitionPhase`. -/
def phases : List MacroPhase := [.DRIFT, .BUILD, .PEAK, .COMEDOWN]

/-- The fixed cycle DRIFT→BUILD→PEAK→COMEDOWN→DRIFT as the specification
words it; `transitionPhase` realises it through `phases.indexOf + 1 mod 4`. -/
def nextPhaseInCycle : MacroPhase → MacroPhase
  | .DRIFT => .BUILD
  | .BUILD => .PEAK
  | .PEAK => .COMEDOWN
  | .COMEDOWN => .DRIFT

/-- The `phaseLengths` table of `handleMacroStructure` (line 698). -/
def phaseLengths : MacroPhase → Nat
  | .DRIFT => 8
  | .BUILD => 8
  | .PEAK => 16
  | .COMEDOWN => 8

/-- `forcePhase` (lines 475-480): switch the phase immediately and reset the
phase timer.  The accent cue (`playCrash`) and the log line are audio-side. -/
def forcePhase (s : EngineState) (phase : MacroPhase) : EngineState :=
  { s with macroPhase := phase, phaseTimer := 0 }

/-- `transitionPhase` (lines 723-742): reset the timer, regenerate the song
structure and zero the generation when leaving COMEDOWN, advance along the
`phases` array, then apply the new phase's density/cutoff preset. -/
def transitionPhase (s : EngineState) : EngineState :=
  let s1 := { s with phaseTimer := 0 }
  let currentIdx := phases.findIdx (fun p => p == s1.macroPhase)
  let s2 :=
    if s1.macroPhase = .COMEDOWN then
      { regenerateSongStructure s1 false false with currentGeneration := 0 }
    else s1
  let s3 := { s2 with macroPhase := phases.getD ((currentIdx + 1) % phases.length) .DRIFT }
  match s3.macroPhase with
  | .DRIFT => { s3 with noteDensity := 1/5, filterCutoff := 400 }
  | .BUILD => { s3 with noteDensity := 3/5, filterCutoff := 2000 }
  | .PEAK => { s3 with noteDensity := 9/10, filterCutoff := 8000 }
  | .COMEDOWN => { s3 with noteDensity := 2/5, filterCutoff := 800 }

/-- `handleMacroStructure` (lines 696-721), which runs with
`current16thNote = 0` (it is invoked from `nextNote` right after the step
index wraps): bump the phase timer, transition when the phase is complete and
autonomous evolution is on, run an evolution tick every 4 measures, and
advance the chord index on progression boundaries.  `playPad` and the
scheduler-tick callback are audio-side. -/
def handleMacroStructure (s : EngineState) : EngineState :=
  let s1 := { s with phaseTimer := s.phaseTimer + 1 }
  let s2 :=
    if phaseLengths s1.macroPhase ≤ s1.phaseTimer ∧ s1.isAutoEvolve = true then
      transitionPhase s1
    else s1
  let s3 := if s2.measureCount % 4 = 0 then evolvePattern s2 false else s2
  if s3.measureCount % s3.currentProgression.barLength = 0 then
    let nIdx := (s3.currentChordIndex + 1) % s3.currentProgression.rootOffsets.length
    { s3 with currentChordIndex := nIdx,
              currentChordRoot := s3.rootNote + s3.currentProgression.rootOffsets.getD nIdx 0 }
  else s3

/-- One measure boundary as `nextNote` (lines 685-694) produces it: the
measure counter increments and `handleMacroStructure` runs. -/
def measureBoundary (s : EngineState) : EngineState :=
  handleMacroStructure { s with measureCount := s.measureCount + 1 }

/-- `n` consecutive measure boundaries. -/
def iterateBoundary : Nat → EngineState → EngineState
  | 0, s => s
  | n + 1, s => iterateBoundary n (measureBoundary s)

/-- The targets of `manualMutate` (lines 308-320). -/
inductive MutateTarget
  | melody
  | timbre
  | rhythm
deriving DecidableEq

/-- `manualMutate` (lines 308-320): melody forces an evolution tick, timbre
runs a timbre-only song-structure pass, rhythm calls
`generateEuclideanRhythms` with no force flag. -/
def manualMutate (s : EngineState) (target : MutateTarget) : EngineState :=
  match target with
  | .melody => evolvePattern s true
  | .timbre => regenerateSongStructure s false true
  | .rhythm => generateEuclideanRhythms s

/-! ### Abstraction of the measure-boundary bookkeeping

The fields of the engine that `handleMacroStructure` reads and writes
independently of the random stream.  The simulation lemma
`absState_measureBoundary` below shows every measure boundary acts on this
abstraction as the deterministic step `absStep`, which lets scenario claims
about phases and generation counters be settled by computation, uniformly in
the random stream. -/

/-- The stream-independent bookkeeping fields of `EngineState`. -/
structure AbsState where
  macroPhase : MacroPhase
  phaseTimer : Nat
  measureCount : Nat
  currentGeneration : Nat
  songGenerateEvents : Nat
  isAutoEvolve : Bool
  melodyLock : Bool
  hasPattern : Bool
deriving DecidableEq

/-- Project an engine state onto its bookkeeping fields. -/
def absState (s : EngineState) : AbsState :=
  ⟨s.macroPhase, s.phaseTimer, s.measureCount, s.currentGeneration,
   s.songGenerateEvents, s.isAutoEvolve, s.locks.melody, s.currentPattern.isSome⟩

/-- The effect of `transitionPhase` on the bookkeeping fields. -/
def absTransition (a : AbsState) : AbsState :=
  let a1 := { a with phaseTimer := 0 }
  let a2 :=
    if a1.macroPhase = .COMEDOWN then
      { a1 with
        songGenerateEvents :=
          if a1.isAutoEvolve then a1.songGenerateEvents + 1 else a1.songGenerateEvents,
        currentGeneration := 0 }
    else a1
  { a2 with macroPhase := nextPhaseInCycle a.macroPhase }

/-- The effect of an autonomous `evolvePattern()` call on the bookkeeping
fields. -/
def absEvolve (a : AbsState) : AbsState :=
  if a.melodyLock then a
  else if !a.isAutoEvolve then a
  else if a.hasPattern then { a with currentGeneration := a.currentGeneration + 1 }
  else { a with hasPattern := true }

/-- The effect of one measure boundary on the bookkeeping fields. -/
def absStep (a : AbsState) : AbsState :=
  let a1 := { a with measureCount := a.measureCount + 1, phaseTimer := a.phaseTimer + 1 }
  let a2 :=
    if phaseLengths a1.macroPhase ≤ a1.phaseTimer ∧ a1.isAutoEvolve = true then
      absTransition a1
    else a1
  if a2.measureCount % 4 = 0 then absEvolve a2 else a2

/-- `n` abstract measure boundaries. -/
def absIterate : Nat → AbsState → AbsState
  | 0, a => a
  | n + 1, a => absIterate n (absStep a)

/-! ### Concrete example data -/

/-- 16 steps with a root-degree note on every even step. -/
def stepsA : List (Option Int) :=
  [some 0, none, some 0, none, some 0, none, some 0, none,
   some 0, none, some 0, none, some 0, none, some 0, none]

/-- A concrete length-16 pattern. -/
def pEx : Pattern :=
  { id := "p0", steps := stepsA, velocity := List.replicate 16 (4/5),
    offsets := some (List.replicate 16 0), generation := 0, parent := none,
    score := none }

/-- The initial `SynthPatch` field value of the engine (lines 73-84). -/
def initialPatch : SynthPatch :=
  { type := .SUBTRACTIVE, waveform := .sawtooth, attack := 1/100, decay := 1/5,
    sustain := 1/10, release := 1/10, detuneAmount := 10, fmDepth := 0,
    harmonicRatio := 2, filterType := .lowpass }

/-- A concrete baseline engine state: fresh engine in DRIFT with a current
pattern, no locks, autonomous evolution on, and the all-zero draw stream. -/
def s0 : EngineState :=
  { isAutoEvolve := true,
    locks := { melody := false, timbre := false, harmony := false, rhythm := false },
    currentPattern := some pEx, counterPattern := none, patternHistory := [],
    elitePatterns := [], currentGeneration := 0, macroPhase := .DRIFT,
    phaseTimer := 0, measureCount := 0, rootNote := 41,
    currentScale := SCALES_MINOR,
    currentProgression := ⟨[0, 0, 0, 0], 4⟩, currentChordIndex := 0,
    currentChordRoot := 0, currentPatch := initialPatch,
    hiHatPattern := List.replicate 16 true, percussionPattern := List.replicate 16 false,
    noteDensity := 1/5, filterCutoff := 500, songGenerateEvents := 0,
    lastAction := none, rand := ⟨fun _ => 0, 0⟩ }

/-- A state with the rhythm lock set and existing rhythm genomes. -/
def sLocked : EngineState :=
  { s0 with locks := { melody := false, timbre := false, harmony := false, rhythm := true } }

/-- A state sitting in COMEDOWN. -/
def sComedown : EngineState := { s0 with macroPhase := .COMEDOWN }

/-- A state one evolution short of a mass-extinction generation. -/
def sGen15 : EngineState := { s0 with currentGeneration := 15 }

/-- A concrete elite-archive entry whose stored score is its computed
fitness. -/
def peEx : Pattern :=
  { id := "e0", steps := stepsA, velocity := List.replicate 16 (4/5),
    offsets := some (List.replicate 16 0), generation := 0, parent := none,
    score := some 100 }

/-- A state with a one-entry elite archive. -/
def sElite : EngineState := { s0 with elitePatterns := [peEx] }

/-- A maximally dense pattern of non-stable degrees (16 notes of value 1). -/
def pbEx : Pattern :=
  { id := "b0", steps := List.replicate 16 (some 1),
    velocity := List.replicate 16 1, offsets := none, generation := 0,
    parent := none, score := none }

/-! ### Predicates used by the claims -/

/-- A scale-degree value that is neither maximally stable (0, 7, 12) nor
moderately stable (3, 4, 5) for the downbeat reward of `calculateFitness`. -/
def nonStable (v : Int) : Prop :=
  v ≠ 0 ∧ v ≠ 7 ∧ v ≠ 12 ∧ v ≠ 3 ∧ v ≠ 4 ∧ v ≠ 5

instance (v : Int) : Decidable (nonStable v) :=
  inferInstanceAs (Decidable (v ≠ 0 ∧ v ≠ 7 ∧ v ≠ 12 ∧ v ≠ 3 ∧ v ≠ 4 ∧ v ≠ 5))

/-- A step slot holding a note whose value is a non-stable degree. -/
def isNonStableNote : Option Int → Prop
  | none => False
  | some v => nonStable v

instance : DecidablePred isNonStableNote := fun x =>
  match x with
  | none => isFalse (fun h => h)
  | some v => inferInstanceAs (Decidable (nonStable v))

/-- The optional offsets array, when present, has length 16. -/
def offsetsLen16 : Option (List ℚ) → Prop
  | none => True
  | some o => o.length = 16

instance : DecidablePred offsetsLen16 := fun x =>
  match x with
  | none => isTrue trivial
  | some o => inferInstanceAs (Decidable (o.length = 16))

/-- The shape hypothesis of C9 on input patterns: step and velocity arrays of
length 16, and a length-16 offsets array whenever one is present. -/
def PatLen16 (p : Pattern) : Prop :=
  p.steps.length = 16 ∧ p.velocity.length = 16 ∧ offsetsLen16 p.offsets

instance (p : Pattern) : Decidable (PatLen16 p) :=
  inferInstanceAs
    (Decidable (p.steps.length = 16 ∧ p.velocity.length = 16 ∧ offsetsLen16 p.offsets))

/-- The elite-archive invariant of C6: at most 10 entries, sorted descending
by score, every entry stores its own computed fitness and that fitness
exceeds 50, and no two entries share an id. -/
def EliteInv (l : List Pattern) : Prop :=
  l.length ≤ 10 ∧
  List.Pairwise eliteGE l ∧
  (∀ p ∈ l, p.score = some (calculateFitness p) ∧ 50 < calculateFitness p) ∧
  List.Pairwise (fun a b => a.id ≠ b.id) l

instance (l : List Pattern) : Decidable (EliteInv l) :=
  inferInstanceAs
    (Decidable (l.length ≤ 10 ∧ List.Pairwise eliteGE l ∧
      (∀ p ∈ l, p.score = some (calculateFitness p) ∧ 50 < calculateFitness p) ∧
      List.Pairwise (fun a b : Pattern => a.id ≠ b.id) l))

/-! ## Theorems -/

/-! ### Small helper lemmas -/

theorem length_euclidFrom (steps pulses : Nat) :
    ∀ (n bucket : Nat), (euclidFrom steps pulses bucket n).length = n := by
  intro n
  induction n with
  | zero => intro bucket; rfl
  | succ k ih =>
    intro bucket
    unfold euclidFrom
    by_cases h : steps ≤ bucket + pulses <;> simp [h, ih]

theorem length_getEuclideanPatternBase (steps pulses : Nat) :
    (getEuclideanPatternBase steps pulses).length = steps :=
  length_euclidFrom steps pulses steps 0

theorem length_getEuclideanPattern (steps pulses : Nat) (r : Rand) :
    (getEuclideanPattern steps pulses r).1.length = steps := by
  unfold getEuclideanPattern
  simp only [List.length_append, List.length_drop, List.length_take,
    length_getEuclideanPatternBase]
  omega

theorem getD_mem_or_default {α : Type} (l : List α) (i : Nat) (d : α) :
    l.getD i d ∈ l ∨ l.getD i d = d := by
  induction l generalizing i with
  | nil => right; cases i <;> rfl
  | cons a t ih =>
    cases i with
    | zero => left; simp [List.getD]
    | succ n =>
      rcases ih n with h | h
      · left; simp [List.getD] at h ⊢; right; simpa [List.getD] using h
      · right; simpa [List.getD] using h

theorem foldl_preserve {α σ : Type} (P : σ → Prop) (f : σ → α → σ)
    (h : ∀ st a, P st → P (f st a)) :
    ∀ (l : List α) (st : σ), P st → P (l.foldl f st) := by
  intro l
  induction l with
  | nil => intro st hs; exact hs
  | cons a t ih => intro st hs; exact ih _ (h st a hs)

/-! ### C8 -/

/-- C8: the accumulator-based Euclidean construction with `steps = 16` and
`pulses = 4`, before the random rotation, is a 16-entry boolean array with
exactly 4 `true` values evenly spaced at stride 4 (indices 3, 7, 11, 15). -/
theorem c8_euclidean_16_4 :
    getEuclideanPatternBase 16 4 =
      [false, false, false, true, false, false, false, true,
       false, false, false, true, false, false, false, true] ∧
    (getEuclideanPatternBase 16 4).length = 16 ∧
    (getEuclideanPatternBase 16 4).count true = 4 := by
  decide

/-! ### C1 -/

theorem evolveCore_massExtinction (scale : List Int) (elite history : List Pattern)
    (gen : Nat) (cur : Pattern) (r : Rand) (h : gen % 16 = 0) :
    (evolveCore scale elite history gen cur r).action = .MASS_EXTINCTION ∧
    (evolveCore scale elite history gen cur r).numMutations = 8 := by
  unfold evolveCore evolveSecond evolveMutate
  simp only [h]
  split <;> simp

/-- C1: past genesis, whenever the incremented generation counter is a
multiple of 16 (mass extinction), `evolvePattern` takes the mutation branch —
never a learning or plain crossover — and its point-mutation loop runs exactly
8 times, for every random stream. -/
theorem c1_mass_extinction_forces_mutation (s : EngineState) (f : Bool) (cur : Pattern)
    (hp : s.currentPattern = some cur)
    (h1 : (s.locks.melody && !f) = false)
    (h2 : (!s.isAutoEvolve && !f) = false)
    (hgen : (s.currentGeneration + 1) % 16 = 0) :
    (evolvePattern s f).lastAction = some .MASS_EXTINCTION ∧
    ∀ (scale : List Int) (elite history : List Pattern) (c : Pattern) (r : Rand) (g : Nat),
      g % 16 = 0 →
      (evolveCore scale elite history g c r).action = .MASS_EXTINCTION ∧
      (evolveCore scale elite history g c r).numMutations = 8 := by
  constructor
  · unfold evolvePattern
    rw [h1, h2, hp]
    simp only [Bool.false_eq_true, if_false]
    exact congrArg some (evolveCore_massExtinction _ _ _ _ _ _ hgen).1
  · intro scale elite history c r g hg
    exact evolveCore_massExtinction scale elite history g c r hg

/-- Witness for C1 at a concrete state one tick before generation 16. -/
theorem c1_mass_extinction_witness :
    (sGen15.currentGeneration + 1) % 16 = 0 ∧
    (evolvePattern sGen15 false).lastAction = some .MASS_EXTINCTION :=
  ⟨by decide,
   (c1_mass_extinction_forces_mutation sGen15 false pEx rfl rfl rfl (by decide)).1⟩

/-! ### C5 -/

/-- C5 counterexample: with the rhythm lock set and genomes present,
`manualMutate('rhythm')` is a no-op — forced rhythm mutation does NOT bypass
the lock, refuting the claim. -/
theorem c5_manual_rhythm_respects_lock :
    sLocked.locks.rhythm = true ∧ 0 < sLocked.hiHatPattern.length ∧
    manualMutate sLocked .rhythm = sLocked :=
  ⟨rfl, by decide, rfl⟩

/-- C5 (amended): `manualMutate('rhythm')` respects the rhythm lock — with the
lock set and an existing genome it changes nothing; with the lock clear it
regenerates both percussion genomes as fresh 16-step Euclidean patterns,
consuming exactly 4 random draws. -/
theorem c5_manual_rhythm_amended (s : EngineState) :
    (s.locks.rhythm = true → 0 < s.hiHatPattern.length → manualMutate s .rhythm = s) ∧
    (s.locks.rhythm = false →
      (manualMutate s .rhythm).hiHatPattern.length = 16 ∧
      (manualMutate s .rhythm).percussionPattern.length = 16 ∧
      (manualMutate s .rhythm).rand.idx = s.rand.idx + 4) := by
  constructor
  · intro h1 h2
    unfold manualMutate generateEuclideanRhythms
    rw [if_pos ⟨h1, h2⟩]
  · intro h
    unfold manualMutate generateEuclideanRhythms
    rw [if_neg (by simp [h])]
    refine ⟨?_, ?_, ?_⟩
    · simpa using length_getEuclideanPattern 16 _ _
    · simpa using length_getEuclideanPattern 16 _ _
    · simp [getEuclideanPattern, Rand.step]

/-- Witness for C5 (amended) at the locked and unlocked concrete states. -/
theorem c5_manual_rhythm_witness :
    manualMutate sLocked .rhythm = sLocked ∧
    (manualMutate s0 .rhythm).hiHatPattern.length = 16 :=
  ⟨(c5_manual_rhythm_amended sLocked).1 rfl (by decide),
   ((c5_manual_rhythm_amended s0).2 rfl).1⟩

/-! ### C7 -/

theorem fitnessStep_nonStable_bound (acc : FitAcc) (idx : Nat) (v : Int)
    (h : nonStable v) :
    (fitnessStep acc idx (some v)).score ≤ acc.score + 5 ∧
    (fitnessStep acc idx (some v)).noteCount = acc.noteCount + 1 := by
  obtain ⟨h0, h7, h12, h3, h4, h5⟩ := h
  simp only [fitnessStep, h0, h7, h12, h3, h4, h5, or_self, if_false, ite_self]
  refine ⟨?_, trivial⟩
  split_ifs <;> omega

theorem fitnessWalk_nonStable_bound :
    ∀ (l : List (Option Int)) (idx : Nat) (acc : FitAcc),
      (∀ x ∈ l, isNonStableNote x) →
      (fitnessWalk l idx acc).score ≤ acc.score + 5 * (l.length : Int) ∧
      (fitnessWalk l idx acc).noteCount = acc.noteCount + l.length := by
  intro l
  induction l with
  | nil => intro idx acc _; simp [fitnessWalk]
  | cons x t ih =>
    intro idx acc h
    have hx := h x (List.mem_cons_self x t)
    match x, hx with
    | some v, hv =>
      have hstep := fitnessStep_nonStable_bound acc idx v hv
      have htail := ih (idx + 1) (fitnessStep acc idx (some v))
        (fun y hy => h y (List.mem_cons_of_mem _ hy))
      unfold fitnessWalk
      constructor
      · have := htail.1
        have := hstep.1
        simp only [List.length_cons]
        push_cast
        omega
      · have := htail.2
        have := hstep.2
        simp only [List.length_cons]
        omega

theorem fitnessOfSteps_nonStable_le (steps : List (Option Int))
    (hlen : steps.length = 16)
    (hall : ∀ x ∈ steps, isNonStableNote x) :
    fitnessOfSteps steps ≤ 75 := by
  have hw := fitnessWalk_nonStable_bound steps 0 ⟨0, 0, -100⟩ hall
  rw [hlen] at hw
  obtain ⟨hw1, hw2⟩ := hw
  dsimp only at hw1 hw2
  have hsc : (fitnessWalk steps 0 ⟨0, 0, -100⟩).score ≤ 80 := by omega
  have hnc : (fitnessWalk steps 0 ⟨0, 0, -100⟩).noteCount = 16 := hw2
  simp only [fitnessOfSteps, hnc]
  have hden : ¬((1 : ℚ)/4 < ((16 : Nat) : ℚ)/16 ∧ ((16 : Nat) : ℚ)/16 < 3/4) := by
    norm_num
  rw [if_neg hden]
  split_ifs with hbonus
  · have : (max 0 ((fitnessWalk steps 0 ⟨0, 0, -100⟩).score - 10 + 5) : Int) ≤ 75 := by
      omega
    exact_mod_cast this
  · have : (max 0 ((fitnessWalk steps 0 ⟨0, 0, -100⟩).score - 10) : Int) ≤ 75 := by
      omega
    exact_mod_cast this

/-- C7: a 16-step pattern with a root-degree note on every even step scores
strictly higher under `calculateFitness` than every 16-step pattern whose 16
steps all hold notes of non-stable degree. -/
theorem c7_fitness_comparison (pa pb : Pattern)
    (hA : pa.steps = stepsA)
    (hlen : pb.steps.length = 16)
    (hall : ∀ x ∈ pb.steps, isNonStableNote x) :
    calculateFitness pb < calculateFitness pa := by
  have hpa : calculateFitness pa = 100 := by
    unfold calculateFitness
    rw [hA]
    decide
  have hpb : calculateFitness pb ≤ 75 :=
    fitnessOfSteps_nonStable_le pb.steps hlen hall
  rw [hpa]
  calc calculateFitness pb ≤ 75 := hpb
    _ < 100 := by norm_num

/-- Witness for C7 at the concrete patterns `pEx` (root notes on downbeats)
and `pbEx` (16 notes of non-stable degree 1). -/
theorem c7_fitness_witness :
    pEx.steps = stepsA ∧ pbEx.steps.length = 16 ∧
    (∀ x ∈ pbEx.steps, isNonStableNote x) ∧
    calculateFitness pbEx < calculateFitness pEx :=
  ⟨rfl, by decide, by decide,
   c7_fitness_comparison pEx pbEx rfl (by decide) (by decide)⟩

/-! ### C4 -/

theorem agrees_peek {r1 r2 : Rand} (h : r1.Agrees r2) : r1.peek = r2.peek := by
  simpa [Rand.peek] using h 0

theorem agrees_step {r1 r2 : Rand} (h : r1.Agrees r2) : r1.step.Agrees r2.step := by
  intro i
  show r1.stream (r1.idx + 1 + i) = r2.stream (r2.idx + 1 + i)
  have e1 : r1.idx + 1 + i = r1.idx + (i + 1) := by omega
  have e2 : r2.idx + 1 + i = r2.idx + (i + 1) := by omega
  rw [e1, e2]
  exact h (i + 1)

theorem counterSteps_agrees (scale : List Int) :
    ∀ (l : List (Option Int)) (r1 r2 : Rand), r1.Agrees r2 →
      (counterSteps scale l r1).1 = (counterSteps scale l r2).1 ∧
      (counterSteps scale l r1).2.Agrees (counterSteps scale l r2).2 := by
  intro l
  induction l with
  | nil => intro r1 r2 h; exact ⟨rfl, h⟩
  | cons mv rest ih =>
    intro r1 r2 h
    have ha1 : r1.step.Agrees r2.step := agrees_step h
    have ha2 : r1.step.step.Agrees r2.step.step := agrees_step ha1
    have ha3 : r1.step.step.step.Agrees r2.step.step.step := agrees_step ha2
    have p1 : r1.peek = r2.peek := agrees_peek h
    have p2 : r1.step.peek = r2.step.peek := agrees_peek ha1
    have p3 : r1.step.step.peek = r2.step.step.peek := agrees_peek ha2
    unfold counterSteps
    cases mv with
    | some mainNote =>
      dsimp only
      rw [← p1, ← p2, ← p3]
      by_cases hc : r1.peek < (if (some mainNote ≠ none) then (1 : ℚ)/10 else 7/10)
      · rw [if_pos hc, if_pos hc]
        obtain ⟨e1, e2⟩ := ih r1.step.step.step r2.step.step.step ha3
        exact ⟨by rw [e1], e2⟩
      · rw [if_neg hc, if_neg hc]
        obtain ⟨e1, e2⟩ := ih r1.step r2.step ha1
        exact ⟨by rw [e1], e2⟩
    | none =>
      dsimp only
      rw [← p1, ← p2, ← p3]
      by_cases hc : r1.peek < (if ((none : Option Int) ≠ none) then (1 : ℚ)/10 else 7/10)
      · rw [if_pos hc, if_pos hc]
        obtain ⟨e1, e2⟩ := ih r1.step.step.step r2.step.step.step ha3
        exact ⟨by rw [e1], e2⟩
      · rw [if_neg hc, if_neg hc]
        obtain ⟨e1, e2⟩ := ih r1.step r2.step ha1
        exact ⟨by rw [e1], e2⟩

/-- C4 counterexample: `generateCounterPattern` is not a function of the
melody pattern and scale alone — two invocations on the same melody and scale
but different random draws yield different counterpoint steps. -/
theorem c4_counter_pattern_not_deterministic :
    (generateCounterPattern SCALES_MINOR pEx ⟨fun _ => 0, 0⟩).1.steps ≠
    (generateCounterPattern SCALES_MINOR pEx ⟨fun _ => 1/2, 0⟩).1.steps := by
  decide

/-- C4 (amended): counterpoint generation is a randomized function of the
melody pattern and scale; it is deterministic in the melody, the scale, and
the consumed random draws — two invocations whose random states will deliver
the same draw sequence yield identical counterpoint patterns (same steps,
velocities, offsets, id, generation). -/
theorem c4_counter_pattern_amended (scale : List Int) (m : Pattern) (r1 r2 : Rand)
    (h : r1.Agrees r2) :
    (generateCounterPattern scale m r1).1 = (generateCounterPattern scale m r2).1 := by
  obtain ⟨e1, _⟩ := counterSteps_agrees scale m.steps r1 r2 h
  unfold generateCounterPattern
  dsimp only
  rw [e1]

/-- Witness for C4 (amended): two distinct random states delivering the same
draws produce the same counterpoint. -/
theorem c4_counter_pattern_witness :
    (⟨fun _ => 0, 0⟩ : Rand).Agrees ⟨fun _ => 0, 5⟩ ∧
    (generateCounterPattern SCALES_MINOR pEx ⟨fun _ => 0, 0⟩).1 =
      (generateCounterPattern SCALES_MINOR pEx ⟨fun _ => 0, 5⟩).1 :=
  ⟨fun _ => rfl,
   c4_counter_pattern_amended SCALES_MINOR pEx ⟨fun _ => 0, 0⟩ ⟨fun _ => 0, 5⟩
     (fun _ => rfl)⟩

/-! ### C9 -/

theorem afterNote_len (idx : Nat) (st : MutState)
    (h : st.1.length = 16 ∧ st.2.1.length = 16 ∧ st.2.2.1.length = 16) :
    (afterNote idx st).1.length = 16 ∧
    (afterNote idx st).2.1.length = 16 ∧
    (afterNote idx st).2.2.1.length = 16 := by
  obtain ⟨h1, h2, h3⟩ := h
  unfold afterNote
  dsimp only
  split_ifs <;> simp [List.length_set, h1, h2, h3]

theorem mutateOnce_len (scale : List Int) (ext : Bool) (st : MutState)
    (h : st.1.length = 16 ∧ st.2.1.length = 16 ∧ st.2.2.1.length = 16) :
    (mutateOnce scale ext st).1.length = 16 ∧
    (mutateOnce scale ext st).2.1.length = 16 ∧
    (mutateOnce scale ext st).2.2.1.length = 16 := by
  obtain ⟨h1, h2, h3⟩ := h
  unfold mutateOnce
  dsimp only
  split
  · split_ifs
    all_goals
      refine afterNote_len _ _ ⟨?_, ?_, ?_⟩ <;> simp [List.length_set, h1, h2, h3]
  · split_ifs <;> simp [List.length_set, h1, h2, h3]

theorem evolveMutate_len (scale : List Int) (ext : Bool) (cur : Pattern)
    (bS : List (Option Int)) (bV bO : List ℚ) (r : Rand)
    (hS : bS.length = 16) (hV : bV.length = 16) (hO : bO.length = 16) :
    (evolveMutate scale ext cur bS bV bO r).steps.length = 16 ∧
    (evolveMutate scale ext cur bS bV bO r).velocity.length = 16 ∧
    (evolveMutate scale ext cur bS bV bO r).offsets.length = 16 := by
  have key := foldl_preserve
    (fun st : MutState => st.1.length = 16 ∧ st.2.1.length = 16 ∧ st.2.2.1.length = 16)
    (fun st _ => mutateOnce scale ext st)
    (fun st _ hst => mutateOnce_len scale ext st hst)
    (List.range (if ext then ((8 : Nat), r) else (1 + floorDraw r.peek 2, r.step)).1)
    ((bS, bV, bO, (if ext then ((8 : Nat), r) else (1 + floorDraw r.peek 2, r.step)).2))
    ⟨hS, hV, hO⟩
  unfold evolveMutate
  dsimp only
  exact ⟨key.1, key.2.1, key.2.2⟩

theorem evolveLearn_len (elite : List Pattern) (cur : Pattern)
    (bS : List (Option Int)) (bV bO : List ℚ) (r : Rand)
    (hS : bS.length = 16) (hV : bV.length = 16) (hO : bO.length = 16)
    (he : ∀ p ∈ elite, PatLen16 p) (hc : PatLen16 cur) :
    (evolveLearn elite cur bS bV bO r).steps.length = 16 ∧
    (evolveLearn elite cur bS bV bO r).velocity.length = 16 ∧
    (evolveLearn elite cur bS bV bO r).offsets.length = 16 := by
  have hpart : PatLen16 (elite.getD (floorDraw r.peek elite.length) cur) := by
    rcases getD_mem_or_default elite (floorDraw r.peek elite.length) cur with hm | hd
    · exact he _ hm
    · rw [hd]; exact hc
  obtain ⟨hps, hpv, _⟩ := hpart
  unfold evolveLearn
  dsimp only
  refine ⟨?_, ?_, hO⟩ <;>
    (simp only [List.length_append, List.length_take, List.length_drop, hS, hV, hps, hpv];
     omega)

theorem evolveSecond_len (scale : List Int) (history : List Pattern) (cur : Pattern)
    (ext : Bool) (bS : List (Option Int)) (bV bO : List ℚ) (r : Rand)
    (hS : bS.length = 16) (hV : bV.length = 16) (hO : bO.length = 16)
    (hh : ∀ p ∈ history, PatLen16 p) (hc : PatLen16 cur) :
    (evolveSecond scale history cur ext bS bV bO r).steps.length = 16 ∧
    (evolveSecond scale history cur ext bS bV bO r).velocity.length = 16 ∧
    (evolveSecond scale history cur ext bS bV bO r).offsets.length = 16 := by
  unfold evolveSecond
  dsimp only
  split_ifs with hcond
  · have hpart : PatLen16 (history.getD (floorDraw r.step.peek (history.length - 1)) cur) := by
      rcases getD_mem_or_default history (floorDraw r.step.peek (history.length - 1)) cur with
        hm | hd
      · exact hh _ hm
      · rw [hd]; exact hc
    obtain ⟨hps, hpv, hpo⟩ := hpart
    refine ⟨?_, ?_, ?_⟩
    · simp only [List.length_append, List.length_take, List.length_drop, hS, hps]; omega
    · simp only [List.length_append, List.length_take, List.length_drop, hV, hpv]; omega
    · rcases hx : (history.getD (floorDraw r.step.peek (history.length - 1)) cur).offsets with
        _ | po
      · simpa [hx] using hO
      · rw [hx] at hpo
        simp only [offsetsLen16] at hpo
        simp only [hx, List.length_append, List.length_take, List.length_drop, hS, hO, hpo]
        omega
  · exact evolveMutate_len scale ext cur bS bV bO r.step hS hV hO

theorem mem_archiveInsert {l : List Pattern} {c : Pattern} {sc : ℚ} {p : Pattern}
    (hp : p ∈ archiveInsert l c sc) : p ∈ l ∨ p = c := by
  unfold archiveInsert at hp
  dsimp only at hp
  split_ifs at hp with hsc hdup hlen
  · exact .inl hp
  · have hpp : p ∈ sortDesc (l ++ [c]) :=
      (List.dropLast_sublist (sortDesc (l ++ [c]))).subset hp
    have := (List.perm_insertionSort eliteGE (l ++ [c])).subset hpp
    rcases List.mem_append.mp this with hm | hm
    · exact .inl hm
    · exact .inr (List.mem_singleton.mp hm)
  · have := (List.perm_insertionSort eliteGE (l ++ [c])).subset hp
    rcases List.mem_append.mp this with hm | hm
    · exact .inl hm
    · exact .inr (List.mem_singleton.mp hm)
  · exact .inl hp

theorem mem_historyPush {l : List Pattern} {c : Pattern} {p : Pattern}
    (hp : p ∈ historyPush l c) : p ∈ l ∨ p = c := by
  unfold historyPush at hp
  dsimp only at hp
  split_ifs at hp with hlen
  · have := List.tail_sublist (l ++ [c]) |>.subset hp
    rcases List.mem_append.mp this with hm | hm
    · exact .inl hm
    · exact .inr (List.mem_singleton.mp hm)
  · rcases List.mem_append.mp hp with hm | hm
    · exact .inl hm
    · exact .inr (List.mem_singleton.mp hm)

theorem evolveCore_len (scale : List Int) (elite history : List Pattern) (gen : Nat)
    (cur : Pattern) (r : Rand)
    (hc : PatLen16 cur) (he : ∀ p ∈ elite, PatLen16 p)
    (hh : ∀ p ∈ history, PatLen16 p) :
    (evolveCore scale elite history gen cur r).steps.length = 16 ∧
    (evolveCore scale elite history gen cur r).velocity.length = 16 ∧
    (evolveCore scale elite history gen cur r).offsets.length = 16 := by
  obtain ⟨hcs, hcv, hco⟩ := hc
  have hbO : (match cur.offsets with
      | some o => o
      | none => List.replicate cur.steps.length (0 : ℚ)).length = 16 := by
    rcases hx : cur.offsets with _ | o
    · simp [hcs]
    · rw [hx] at hco
      simp only [offsetsLen16] at hco
      simpa using hco
  unfold evolveCore
  dsimp only
  split_ifs with h1 h2
  · exact evolveLearn_len elite cur _ _ _ _ hcs hcv hbO he ⟨hcs, hcv, hco⟩
  · exact evolveSecond_len scale history cur _ _ _ _ _ hcs hcv hbO hh ⟨hcs, hcv, hco⟩
  · exact evolveSecond_len scale history cur _ _ _ _ _ hcs hcv hbO hh ⟨hcs, hcv, hco⟩

/-- C9: past genesis, with a length-16 current pattern and length-16 archive
and history entries, every pattern produced by `evolvePattern` — by learning
crossover, plain crossover, or mutation — has step, velocity, and offset
arrays of length exactly 16. -/
theorem c9_offspring_lengths (s : EngineState) (f : Bool) (cur : Pattern)
    (hp : s.currentPattern = some cur)
    (h1 : (s.locks.melody && !f) = false)
    (h2 : (!s.isAutoEvolve && !f) = false)
    (hc : PatLen16 cur)
    (he : ∀ p ∈ s.elitePatterns, PatLen16 p)
    (hh : ∀ p ∈ s.patternHistory, PatLen16 p) :
    ∃ q, (evolvePattern s f).currentPattern = some q ∧
      q.steps.length = 16 ∧ q.velocity.length = 16 ∧
      ∃ o, q.offsets = some o ∧ o.length = 16 := by
  have hc' : PatLen16 { cur with score := some (calculateFitness cur) } := by
    obtain ⟨a, b, c⟩ := hc
    exact ⟨a, b, c⟩
  have he' : ∀ p ∈ archiveInsert s.elitePatterns
      { cur with score := some (calculateFitness cur) } (calculateFitness cur),
      PatLen16 p := by
    intro p hm
    rcases mem_archiveInsert hm with hl | he2
    · exact he p hl
    · rw [he2]; exact hc'
  have hh' : ∀ p ∈ historyPush s.patternHistory
      { cur with score := some (calculateFitness cur) }, PatLen16 p := by
    intro p hm
    rcases mem_historyPush hm with hl | he2
    · exact hh p hl
    · rw [he2]; exact hc'
  have key := evolveCore_len s.currentScale
    (archiveInsert s.elitePatterns { cur with score := some (calculateFitness cur) }
      (calculateFitness cur))
    (historyPush s.patternHistory { cur with score := some (calculateFitness cur) })
    (s.currentGeneration + 1)
    { cur with score := some (calculateFitness cur) } s.rand hc' he' hh'
  unfold evolvePattern
  rw [h1, h2, hp]
  simp only [Bool.false_eq_true, if_false]
  exact ⟨_, rfl, key.1, key.2.1, _, rfl, key.2.2⟩

/-- Witness for C9 at the concrete baseline state. -/
theorem c9_offspring_lengths_witness :
    PatLen16 pEx ∧
    ∃ q, (evolvePattern s0 false).currentPattern = some q ∧
      q.steps.length = 16 ∧ q.velocity.length = 16 ∧
      ∃ o, q.offsets = some o ∧ o.length = 16 :=
  ⟨by decide,
   c9_offspring_lengths s0 false pEx rfl rfl rfl (by decide) (by decide) (by decide)⟩

/-! ### C6 -/

theorem sortDesc_perm (l : List Pattern) : (sortDesc l).Perm l :=
  List.perm_insertionSort eliteGE l

theorem sortDesc_sorted (l : List Pattern) : List.Pairwise eliteGE (sortDesc l) :=
  List.sorted_insertionSort eliteGE l

theorem archiveInsert_inv {l : List Pattern} {c : Pattern} {sc : ℚ}
    (hInv : EliteInv l) (hs : c.score = some sc) (hfit : sc = calculateFitness c) :
    EliteInv (archiveInsert l c sc) := by
  obtain ⟨hlen, hsort, hscore, hids⟩ := hInv
  unfold archiveInsert
  dsimp only
  split_ifs with hsc hdup hbig
  · exact ⟨hlen, hsort, hscore, hids⟩
  all_goals try exact ⟨hlen, hsort, hscore, hids⟩
  all_goals {
    have hperm := sortDesc_perm (l ++ [c])
    have hsorted := sortDesc_sorted (l ++ [c])
    have hmem : ∀ p ∈ sortDesc (l ++ [c]), p ∈ l ∨ p = c := by
      intro p hp
      rcases List.mem_append.mp (hperm.subset hp) with hm | hm
      · exact .inl hm
      · exact .inr (List.mem_singleton.mp hm)
    have hscore2 : ∀ p, p ∈ l ∨ p = c →
        p.score = some (calculateFitness p) ∧ 50 < calculateFitness p := by
      intro p hp
      rcases hp with hm | hm
      · exact hscore p hm
      · subst hm
        refine ⟨by rw [hs, hfit], ?_⟩
        rw [← hfit]
        exact hsc
    have hidsApp : List.Pairwise (fun a b : Pattern => a.id ≠ b.id) (l ++ [c]) := by
      refine List.pairwise_append.mpr ⟨hids, List.pairwise_singleton _ _, ?_⟩
      intro a ha b hb
      rw [List.mem_singleton.mp hb]
      intro hcon
      exact hdup ⟨a, ha, hcon⟩
    have hidsSorted : List.Pairwise (fun a b : Pattern => a.id ≠ b.id) (sortDesc (l ++ [c])) :=
      (hperm.pairwise_iff (fun h hba => h hba.symm)).mpr hidsApp
    have hlenSorted : (sortDesc (l ++ [c])).length = l.length + 1 := by
      rw [hperm.length_eq, List.length_append, List.length_singleton]
    first
    | -- over capacity: pop the last element of the sorted array
      exact ⟨by simp only [List.length_dropLast, hlenSorted]; omega,
        hsorted.sublist (List.dropLast_sublist _),
        fun p hp => hscore2 p (hmem p ((List.dropLast_sublist _).subset hp)),
        hidsSorted.sublist (List.dropLast_sublist _)⟩
    | -- within capacity
      exact ⟨by omega, hsorted, fun p hp => hscore2 p (hmem p hp), hidsSorted⟩
  }

theorem archiveInsert_evicts {l : List Pattern} {c : Pattern}
    (_hInv : EliteInv l) (hlen10 : l.length = 10) (hfit : 50 < calculateFitness c)
    (hids : ∀ p ∈ l, p.id ≠ c.id) :
    ∃ m, m ∈ l ++ [c] ∧ (∀ p ∈ l ++ [c], eliteKey m ≤ eliteKey p) ∧
      (archiveInsert l c (calculateFitness c) ++ [m]).Perm (l ++ [c]) := by
  have hperm := sortDesc_perm (l ++ [c])
  have hsorted := sortDesc_sorted (l ++ [c])
  have hlen11 : (sortDesc (l ++ [c])).length = 11 := by
    rw [hperm.length_eq, List.length_append, List.length_singleton, hlen10]
  have hne : sortDesc (l ++ [c]) ≠ [] := by
    intro hcon
    rw [hcon] at hlen11
    simp at hlen11
  refine ⟨(sortDesc (l ++ [c])).getLast hne, ?_, ?_, ?_⟩
  · exact hperm.subset (List.getLast_mem hne)
  · intro p hp
    have hp2 : p ∈ sortDesc (l ++ [c]) := (hperm.symm.subset) hp
    have hdecomp := List.dropLast_append_getLast hne
    rw [← hdecomp] at hp2 hsorted
    rcases List.mem_append.mp hp2 with hm | hm
    · have := List.pairwise_append.mp hsorted
      exact this.2.2 p hm _ (List.mem_singleton_self _)
    · rw [List.mem_singleton.mp hm]
  · have hred : archiveInsert l c (calculateFitness c) = (sortDesc (l ++ [c])).dropLast := by
      unfold archiveInsert
      dsimp only
      rw [if_pos hfit, if_neg, if_pos]
      · rw [hlen11]; omega
      · intro ⟨p, hpmem, hpid⟩
        exact hids p hpmem hpid
    rw [hred, List.dropLast_append_getLast hne]
    exact hperm

/-- C6: `evolvePattern` preserves the elite-archive invariant — at most 10
entries, sorted descending by score, every entry scoring above 50 with its
stored score equal to its computed fitness, and pairwise-distinct ids — and an
insertion into a full archive evicts a lowest scorer: the surviving archive
plus one minimal-key element is a permutation of the old archive plus the
inserted pattern. -/
theorem c6_elite_archive_invariant (s : EngineState) (force : Bool)
    (hInv : EliteInv s.elitePatterns) :
    EliteInv (evolvePattern s force).elitePatterns ∧
    (∀ (l : List Pattern) (c : Pattern),
      EliteInv l → l.length = 10 → 50 < calculateFitness c →
      (∀ p ∈ l, p.id ≠ c.id) →
      ∃ m, m ∈ l ++ [c] ∧ (∀ p ∈ l ++ [c], eliteKey m ≤ eliteKey p) ∧
        (archiveInsert l c (calculateFitness c) ++ [m]).Perm (l ++ [c])) := by
  constructor
  · unfold evolvePattern
    split_ifs
    · exact hInv
    · exact hInv
    · split
      · exact hInv
      · exact archiveInsert_inv hInv rfl rfl
  · intro l c h1 h2 h3 h4
    exact archiveInsert_evicts h1 h2 h3 h4

/-- Witness for C6 at a concrete state with a valid one-entry archive. -/
theorem c6_elite_archive_witness :
    EliteInv sElite.elitePatterns ∧ EliteInv (evolvePattern sElite false).elitePatterns :=
  ⟨by decide, (c6_elite_archive_invariant sElite false (by decide)).1⟩

/-! ### Simulation of the measure-boundary bookkeeping (for C2 and C3) -/

theorem genEuclid_proj (s : EngineState) :
    (generateEuclideanRhythms s).macroPhase = s.macroPhase ∧
    (generateEuclideanRhythms s).phaseTimer = s.phaseTimer ∧
    (generateEuclideanRhythms s).measureCount = s.measureCount ∧
    (generateEuclideanRhythms s).currentGeneration = s.currentGeneration ∧
    (generateEuclideanRhythms s).isAutoEvolve = s.isAutoEvolve ∧
    (generateEuclideanRhythms s).locks = s.locks ∧
    (generateEuclideanRhythms s).currentPattern = s.currentPattern ∧
    (generateEuclideanRhythms s).songGenerateEvents = s.songGenerateEvents := by
  unfold generateEuclideanRhythms
  dsimp only
  split_ifs <;> exact ⟨rfl, rfl, rfl, rfl, rfl, rfl, rfl, rfl⟩

theorem regen_proj (s : EngineState) (f t : Bool) :
    (regenerateSongStructure s f t).macroPhase = s.macroPhase ∧
    (regenerateSongStructure s f t).phaseTimer = s.phaseTimer ∧
    (regenerateSongStructure s f t).measureCount = s.measureCount ∧
    (regenerateSongStructure s f t).currentGeneration = s.currentGeneration ∧
    (regenerateSongStructure s f t).isAutoEvolve = s.isAutoEvolve ∧
    (regenerateSongStructure s f t).locks = s.locks ∧
    (regenerateSongStructure s f t).currentPattern = s.currentPattern ∧
    (regenerateSongStructure s f t).songGenerateEvents =
      (if f = false ∧ s.isAutoEvolve = false then s.songGenerateEvents
       else s.songGenerateEvents + 1) := by
  unfold regenerateSongStructure
  dsimp only
  split_ifs <;>
    simp_all [genEuclid_proj]

theorem phases_next (p : MacroPhase) :
    phases.getD ((phases.findIdx (fun q => q == p) + 1) % phases.length) .DRIFT =
      nextPhaseInCycle p := by
  cases p <;> rfl

theorem transition_proj (s : EngineState) :
    (transitionPhase s).measureCount = s.measureCount ∧
    (transitionPhase s).isAutoEvolve = s.isAutoEvolve ∧
    (transitionPhase s).locks = s.locks ∧
    (transitionPhase s).currentPattern = s.currentPattern := by
  unfold transitionPhase
  dsimp only
  rw [phases_next]
  cases hphase : s.macroPhase <;>
    (dsimp only [nextPhaseInCycle]; split_ifs <;> simp_all [regen_proj])

theorem absState_evolve (s : EngineState) :
    absState (evolvePattern s false) = absEvolve (absState s) := by
  unfold evolvePattern absEvolve
  cases hml : s.locks.melody <;> cases ha : s.isAutoEvolve <;>
    cases hcp : s.currentPattern <;>
      simp_all [absState]

theorem absState_transition (s : EngineState) :
    absState (transitionPhase s) = absTransition (absState s) := by
  unfold transitionPhase absTransition
  dsimp only
  rw [phases_next]
  cases ha : s.isAutoEvolve <;> cases hphase : s.macroPhase <;>
    simp_all [absState, nextPhaseInCycle, regen_proj]

theorem absTransition_measureCount (a : AbsState) :
    (absTransition a).measureCount = a.measureCount := by
  unfold absTransition
  dsimp only
  split_ifs <;> rfl

theorem absState_chordUpdate (X : EngineState) (i : Nat) (c : Int) :
    absState { X with currentChordIndex := i, currentChordRoot := c } = absState X := rfl

theorem absState_bump (s : EngineState) :
    absState { s with
        phaseTimer := s.phaseTimer + 1
        measureCount := s.measureCount + 1 } =
      { absState s with
        phaseTimer := s.phaseTimer + 1
        measureCount := s.measureCount + 1 } := rfl

theorem absState_macroPhase (s : EngineState) : (absState s).macroPhase = s.macroPhase := rfl

theorem absState_phaseTimer (s : EngineState) : (absState s).phaseTimer = s.phaseTimer := rfl

theorem absState_measureCount (s : EngineState) :
    (absState s).measureCount = s.measureCount := rfl

theorem absState_isAutoEvolve (s : EngineState) :
    (absState s).isAutoEvolve = s.isAutoEvolve := rfl

theorem absState_currentGeneration (s : EngineState) :
    (absState s).currentGeneration = s.currentGeneration := rfl

theorem absState_songGenerateEvents (s : EngineState) :
    (absState s).songGenerateEvents = s.songGenerateEvents := rfl

/-- Every measure boundary acts on the bookkeeping fields as the deterministic
step `absStep`, uniformly in the random stream and the remaining engine
state. -/
theorem absState_measureBoundary (s : EngineState) :
    absState (measureBoundary s) = absStep (absState s) := by
  unfold measureBoundary handleMacroStructure absStep
  dsimp only
  simp only [apply_ite absState, absState_chordUpdate, ite_self, absState_evolve,
    absState_transition, absState_bump]
  simp only [apply_ite EngineState.measureCount, apply_ite AbsState.measureCount,
    transition_proj, absTransition_measureCount, ite_self, absState_macroPhase,
    absState_phaseTimer, absState_measureCount, absState_isAutoEvolve]

theorem absState_iterate (n : Nat) :
    ∀ s : EngineState, absState (iterateBoundary n s) = absIterate n (absState s) := by
  induction n with
  | zero => intro s; rfl
  | succ k ih =>
    intro s
    unfold iterateBoundary absIterate
    rw [ih, absState_measureBoundary]

/-! ### C2 -/

theorem absStep_phase (a : AbsState) :
    (absStep a).macroPhase = a.macroPhase ∨
    (absStep a).macroPhase = nextPhaseInCycle a.macroPhase := by
  unfold absStep absTransition absEvolve
  dsimp only
  split_ifs <;> first | exact Or.inl rfl | exact Or.inr rfl

theorem absStep_phase_disabled (a : AbsState) (h : a.isAutoEvolve = false) :
    (absStep a).macroPhase = a.macroPhase := by
  unfold absStep absEvolve
  dsimp only
  have hc : ¬(phaseLengths a.macroPhase ≤ a.phaseTimer + 1 ∧ a.isAutoEvolve = true) := by
    simp [h]
  rw [if_neg hc]
  split_ifs <;> rfl

/-- C2 counterexample: `forcePhase` can jump outside the fixed cycle — forcing
PEAK from DRIFT transitions DRIFT→PEAK although the cycle successor of DRIFT
is BUILD, refuting the claim that every transition, including a forced one,
follows the cycle. -/
theorem c2_force_phase_breaks_cycle :
    s0.macroPhase = .DRIFT ∧
    (forcePhase s0 .PEAK).macroPhase = .PEAK ∧
    MacroPhase.PEAK ≠ nextPhaseInCycle .DRIFT :=
  ⟨rfl, rfl, by decide⟩

/-- C2 (amended): every autonomous (measure-boundary) phase transition follows
the fixed cycle DRIFT→BUILD→PEAK→COMEDOWN→DRIFT, and none occurs while
autonomous evolution is disabled; `forcePhase`, by contrast, switches
immediately to the requested phase — which need not be the cycle successor —
and resets the phase timer. -/
theorem c2_phase_cycle_amended (s : EngineState) (p : MacroPhase) :
    (s.isAutoEvolve = false → (measureBoundary s).macroPhase = s.macroPhase) ∧
    ((measureBoundary s).macroPhase = s.macroPhase ∨
      (measureBoundary s).macroPhase = nextPhaseInCycle s.macroPhase) ∧
    (forcePhase s p).macroPhase = p ∧ (forcePhase s p).phaseTimer = 0 := by
  have ephase : (measureBoundary s).macroPhase = (absStep (absState s)).macroPhase :=
    congrArg AbsState.macroPhase (absState_measureBoundary s)
  refine ⟨?_, ?_, rfl, rfl⟩
  · intro h
    rw [ephase]
    exact absStep_phase_disabled (absState s) h
  · rw [ephase]
    exact absStep_phase (absState s)

/-- Witness for C2 (amended) at the concrete baseline state. -/
theorem c2_phase_cycle_witness :
    s0.isAutoEvolve = true ∧ (forcePhase s0 MacroPhase.PEAK).macroPhase = MacroPhase.PEAK :=
  ⟨rfl, (c2_phase_cycle_amended s0 .PEAK).2.2.1⟩

/-! ### C3 -/

set_option maxRecDepth 4000 in
set_option maxHeartbeats 1000000 in
/-- C3 counterexample: from a fresh DRIFT state with autonomous evolution on,
a current pattern and the melody unlocked, the generation counter after
exactly 40 measure boundaries is 1, not 0 — the same boundary that performs
the COMEDOWN→DRIFT rebirth also runs an evolution tick (measure 40 is a
multiple of 4), which re-increments the freshly reset counter. -/
theorem c3_generation_after_40_bars :
    s0.macroPhase = .DRIFT ∧ s0.phaseTimer = 0 ∧ s0.isAutoEvolve = true ∧
    (iterateBoundary 40 s0).currentGeneration ≠ 0 := by
  refine ⟨rfl, rfl, rfl, ?_⟩
  have e40 := absState_iterate 40 s0
  have habs : absState s0 = ⟨.DRIFT, 0, 0, 0, 0, true, false, true⟩ := rfl
  rw [habs] at e40
  have c40 : absIterate 40 (⟨.DRIFT, 0, 0, 0, 0, true, false, true⟩ : AbsState) =
      ⟨.DRIFT, 0, 40, 1, 1, true, false, true⟩ := by decide
  rw [c40] at e40
  have hgen := congrArg AbsState.currentGeneration e40
  rw [absState_currentGeneration] at hgen
  rw [hgen]
  decide

set_option maxRecDepth 4000 in
set_option maxHeartbeats 1000000 in
/-- C3 (amended): from DRIFT with phase timer 0, measure counter 0, autonomous
evolution on, a current pattern present, melody unlocked, and no song
regeneration counted yet, 40 measure boundaries (8 DRIFT + 8 BUILD + 16 PEAK
+ 8 COMEDOWN) return the machine to DRIFT; the song structure is regenerated
exactly once, at the 40th boundary (the COMEDOWN→DRIFT transition, which also
resets the generation counter to 0), and the same boundary's evolution tick
then raises the generation counter to 1. -/
theorem c3_forty_bars_amended (s : EngineState)
    (h1 : s.macroPhase = .DRIFT) (h2 : s.phaseTimer = 0) (h3 : s.isAutoEvolve = true)
    (h4 : s.measureCount = 0) (h5 : s.locks.melody = false)
    (h6 : s.currentPattern.isSome = true) (h7 : s.currentGeneration = 0)
    (h8 : s.songGenerateEvents = 0) :
    (iterateBoundary 40 s).macroPhase = .DRIFT ∧
    (iterateBoundary 40 s).currentGeneration = 1 ∧
    (iterateBoundary 40 s).songGenerateEvents = 1 ∧
    (iterateBoundary 39 s).songGenerateEvents = 0 ∧
    (iterateBoundary 39 s).macroPhase = .COMEDOWN := by
  have habs : absState s = ⟨.DRIFT, 0, 0, 0, 0, true, false, true⟩ := by
    unfold absState
    rw [h1, h2, h3, h4, h5, h6, h7, h8]
  have e40 := absState_iterate 40 s
  have e39 := absState_iterate 39 s
  rw [habs] at e40 e39
  have c40 : absIterate 40 (⟨.DRIFT, 0, 0, 0, 0, true, false, true⟩ : AbsState) =
      ⟨.DRIFT, 0, 40, 1, 1, true, false, true⟩ := by decide
  have c39 : absIterate 39 (⟨.DRIFT, 0, 0, 0, 0, true, false, true⟩ : AbsState) =
      ⟨.COMEDOWN, 7, 39, 9, 0, true, false, true⟩ := by decide
  rw [c40] at e40
  rw [c39] at e39
  have g1 := congrArg AbsState.macroPhase e40
  have g2 := congrArg AbsState.currentGeneration e40
  have g3 := congrArg AbsState.songGenerateEvents e40
  have g4 := congrArg AbsState.songGenerateEvents e39
  have g5 := congrArg AbsState.macroPhase e39
  rw [absState_macroPhase] at g1 g5
  rw [absState_currentGeneration] at g2
  rw [absState_songGenerateEvents] at g3 g4
  exact ⟨g1, g2, g3, g4, g5⟩

/-- Witness for C3 (amended) at the concrete baseline state. -/
theorem c3_forty_bars_witness :
    (iterateBoundary 40 s0).macroPhase = .DRIFT ∧
    (iterateBoundary 40 s0).currentGeneration = 1 ∧
    (iterateBoundary 40 s0).songGenerateEvents = 1 :=
  ⟨(c3_forty_bars_amended s0 rfl rfl rfl rfl rfl rfl rfl rfl).1,
   (c3_forty_bars_amended s0 rfl rfl rfl rfl rfl rfl rfl rfl).2.1,
   (c3_forty_bars_amended s0 rfl rfl rfl rfl rfl rfl rfl rfl).2.2.1⟩

/-! ### C10 -/

/-- C10: `forcePhase(p)` mutates only the macro phase (set to `p`, for every
`p` including DRIFT) and the phase-local bar counter (set to 0); it leaves the
current pattern, counterpoint, chord progression, synth patch, rhythm
genomes, generation counter, song-regeneration count, and every other musical
field unchanged — unlike an autonomous COMEDOWN transition, which zeroes the
generation counter. -/
theorem c10_force_phase_frame (s : EngineState) (p : MacroPhase) :
    (forcePhase s p).macroPhase = p ∧
    (forcePhase s p).phaseTimer = 0 ∧
    (forcePhase s p).currentPattern = s.currentPattern ∧
    (forcePhase s p).counterPattern = s.counterPattern ∧
    (forcePhase s p).currentProgression = s.currentProgression ∧
    (forcePhase s p).currentPatch = s.currentPatch ∧
    (forcePhase s p).hiHatPattern = s.hiHatPattern ∧
    (forcePhase s p).percussionPattern = s.percussionPattern ∧
    (forcePhase s p).currentGeneration = s.currentGeneration ∧
    (forcePhase s p).songGenerateEvents = s.songGenerateEvents ∧
    (forcePhase s p).rootNote = s.rootNote ∧
    (forcePhase s p).elitePatterns = s.elitePatterns ∧
    (forcePhase s p).patternHistory = s.patternHistory ∧
    (forcePhase s p).isAutoEvolve = s.isAutoEvolve ∧
    (forcePhase s p).locks = s.locks ∧
    (forcePhase s p).measureCount = s.measureCount ∧
    (forcePhase s p).currentScale = s.currentScale ∧
    (forcePhase s p).currentChordIndex = s.currentChordIndex ∧
    (forcePhase s p).currentChordRoot = s.currentChordRoot ∧
    (forcePhase s p).noteDensity = s.noteDensity ∧
    (forcePhase s p).filterCutoff = s.filterCutoff ∧
    (forcePhase s p).lastAction = s.lastAction ∧
    (s.macroPhase = .COMEDOWN → (transitionPhase s).currentGeneration = 0) := by
  refine ⟨rfl, rfl, rfl, rfl, rfl, rfl, rfl, rfl, rfl, rfl, rfl, rfl, rfl, rfl, rfl,
    rfl, rfl, rfl, rfl, rfl, rfl, rfl, ?_⟩
  intro h
  unfold transitionPhase
  dsimp only
  rw [phases_next, h]
  dsimp only [nextPhaseInCycle]
  rw [if_pos rfl]

/-- Witness for C10 at a COMEDOWN state, forcing DRIFT. -/
theorem c10_force_phase_witness :
    (forcePhase sComedown .DRIFT).currentPattern = sComedown.currentPattern ∧
    (forcePhase sComedown .DRIFT).currentGeneration = sComedown.currentGeneration ∧
    (transitionPhase sComedown).currentGeneration = 0 := by
  obtain ⟨a1, a2, a3, a4, a5, a6, a7, a8, a9, a10, a11, a12, a13, a14, a15, a16, a17,
    a18, a19, a20, a21, a22, a23⟩ := c10_force_phase_frame sComedown .DRIFT
  exact ⟨a3, a9, a23 rfl⟩

end NT
